import Mathlib

/-!
Verification of the SMOPE-Net joint pose network core (`models/pose.py`).

Shallow embedding conventions:
* tensors are total functions on `Fin`-indexed shapes into `ℚ`;
* `torch.exp` (inside `F.softmax` and `torch.sigmoid`) is abstracted as a
  parameter `e : ℚ → ℚ`; every normalization theorem is proved for all
  strictly positive `e`, which includes the real exponential;
* the reciprocal square root `v ↦ (v + eps)⁻¹ᐟ²` used by `nn.GroupNorm` is
  abstracted as a parameter `rsq : ℚ → ℚ`;
* `nn.Dropout` is modelled with an explicit Bernoulli drop mask: a mask is
  valid for probability `p` when `p = 0` forces every entry to be kept,
  which is exactly the behaviour of `Dropout(0.0)`;
* the external detector and the external 3D-model network are structures of
  abstract functions mirroring exactly the interface `DETRpose.forward`
  consumes.
-/

namespace SMOPE

/-- A rank-2 tensor of shape `(a, b)` with rational entries. -/
abbrev Tensor2 (a b : ℕ) := Fin a → Fin b → ℚ

/-- A rank-3 tensor of shape `(a, b, c)` with rational entries. -/
abbrev Tensor3 (a b c : ℕ) := Fin a → Fin b → Fin c → ℚ

/-- A rank-4 tensor of shape `(a, b, c, d)` with rational entries. -/
abbrev Tensor4 (a b c d : ℕ) := Fin a → Fin b → Fin c → Fin d → ℚ

/-- `nn.Linear(din, dout)`: a weight matrix and a bias vector. -/
structure Linear (din dout : ℕ) where
  weight : Fin dout → Fin din → ℚ
  bias : Fin dout → ℚ

/-- Application of a linear layer to the trailing axis of its input:
`y j = Σ_i W j i * x i + b j`. -/
def Linear.apply {din dout : ℕ} (l : Linear din dout) (x : Fin din → ℚ) :
    Fin dout → ℚ :=
  fun j => (∑ i, l.weight j i * x i) + l.bias j

/-- `F.relu`. -/
def relu (x : ℚ) : ℚ := max x 0

/-- `F.softmax(v, dim=-1)` on one row, with the exponential abstracted as
`e`: `softmaxVec e v i = e (v i) / Σ_j e (v j)`. -/
def softmaxVec {n : ℕ} (e : ℚ → ℚ) (v : Fin n → ℚ) : Fin n → ℚ :=
  fun i => e (v i) / ∑ j, e (v j)

/-- For any strictly positive `e` and nonempty row, the softmax row sums
to `1`. -/
theorem softmaxVec_sum (e : ℚ → ℚ) (he : ∀ z, 0 < e z) {n : ℕ}
    (hn : 0 < n) (v : Fin n → ℚ) : ∑ i, softmaxVec e v i = 1 := by
  have hne : Nonempty (Fin n) := ⟨⟨0, hn⟩⟩
  have hD : 0 < ∑ j, e (v j) :=
    Finset.sum_pos (fun j _ => he (v j)) Finset.univ_nonempty
  unfold softmaxVec
  rw [← Finset.sum_div, div_self hD.ne']

/-- A Bernoulli drop-decision mask for a rank-4 activation tensor. -/
def DropMask (B Q n M : ℕ) := Fin B → Fin Q → Fin n → Fin M → Bool

/-- A drop mask is a valid sample for drop probability `p` when `p = 0`
forces every entry to be kept (a Bernoulli(0) draw never drops). -/
def ValidDropMask {B Q n M : ℕ} (p : ℚ) (m : DropMask B Q n M) : Prop :=
  p = 0 → ∀ b q h mm, m b q h mm = false

/-- `nn.Dropout(p)` on a rank-4 tensor: in training mode dropped entries
become `0` and kept entries are rescaled by `1 / (1 - p)`; in eval mode it
is the identity. -/
def dropoutApply {B Q n M : ℕ} (p : ℚ) (training : Bool)
    (m : DropMask B Q n M) (x : Tensor4 B Q n M) : Tensor4 B Q n M :=
  fun b q h mm =>
    if training then (if m b q h mm then 0 else x b q h mm / (1 - p))
    else x b q h mm

/-- With `p = 0` and a mask validly sampled for `p = 0`, dropout is the
identity in both training and eval mode. -/
theorem dropoutApply_zero {B Q n M : ℕ} (training : Bool)
    (m : DropMask B Q n M) (x : Tensor4 B Q n M)
    (hm : ∀ b q h mm, m b q h mm = false) :
    dropoutApply 0 training m x = x := by
  funext b q h mm
  cases training <;> simp [dropoutApply, hm]

/-- `MHAttentionMap(query_dim, hidden_dim, num_heads)` with
`hidden_dim = n * hd` (the source computes the head width as
`hidden_dim // num_heads`; the detector's widths are divisible by the head
count).  `normalizeFact` is the constant
`float(hidden_dim / num_heads) ** -0.5`, kept abstract since square roots
leave `ℚ`; `dropoutP` is the `nn.Dropout` probability. -/
structure MHAttentionMap (qd n hd : ℕ) where
  qLinear : Linear qd (n * hd)
  kLinear : Linear qd (n * hd)
  normalizeFact : ℚ
  dropoutP : ℚ

/-- The scaled dot-product scores
`torch.einsum("bqnc,bmnc->bqnm", qh * normalize_fact, kh)` after
projecting and reshaping queries and keys.  The source's
`view(B, ·, n, hd)` of a `(B, ·, n*hd)` tensor is realized by the
row-major index bijection `finProdFinEquiv : Fin n × Fin hd ≃ Fin (n*hd)`,
`(h, c) ↦ c + hd * h`. -/
def MHAttentionMap.scores {qd n hd B Q M : ℕ} (A : MHAttentionMap qd n hd)
    (q : Tensor3 B Q qd) (k : Tensor3 B M qd) : Tensor4 B Q n M :=
  fun b i h m =>
    ∑ c : Fin hd,
      (A.qLinear.apply (q b i) (finProdFinEquiv (h, c)) * A.normalizeFact) *
        A.kLinear.apply (k b m) (finProdFinEquiv (h, c))

/-- `MHAttentionMap.forward`: scores, then
`F.softmax(weights.flatten(2), dim=-1).view(weights.size())` — softmax over
the flattened trailing `(heads, M)` axes, reshaped back — then dropout.
The flatten/reshape pair is realized by `finProdFinEquiv` on
`Fin n × Fin M`, which is exactly the row-major flattening PyTorch uses. -/
def MHAttentionMap.forward {qd n hd B Q M : ℕ} (A : MHAttentionMap qd n hd)
    (e : ℚ → ℚ) (training : Bool) (dmask : DropMask B Q n M)
    (q : Tensor3 B Q qd) (k : Tensor3 B M qd) : Tensor4 B Q n M :=
  dropoutApply A.dropoutP training dmask
    (fun b i h m =>
      softmaxVec e
        (fun j => A.scores q k b i (finProdFinEquiv.symm j).1
          (finProdFinEquiv.symm j).2)
        (finProdFinEquiv (h, m)))

/-- Reindexing a sum over the flattened `(n, M)` axes as a double sum. -/
theorem sum_flat {n M : ℕ} (g : Fin (n * M) → ℚ) :
    ∑ j, g j = ∑ h : Fin n, ∑ m : Fin M, g (finProdFinEquiv (h, m)) := by
  rw [← Equiv.sum_comp (finProdFinEquiv : Fin n × Fin M ≃ Fin (n * M)) g,
    Fintype.sum_prod_type]

/-- In eval mode the forward pass is the reshaped joint softmax of the
scores. -/
theorem MHAttentionMap.forward_eval {qd n hd B Q M : ℕ}
    (A : MHAttentionMap qd n hd) (e : ℚ → ℚ) (dmask : DropMask B Q n M)
    (q : Tensor3 B Q qd) (k : Tensor3 B M qd) (b : Fin B) (i : Fin Q)
    (h : Fin n) (m : Fin M) :
    A.forward e false dmask q k b i h m =
      softmaxVec e
        (fun j => A.scores q k b i (finProdFinEquiv.symm j).1
          (finProdFinEquiv.symm j).2)
        (finProdFinEquiv (h, m)) := rfl

/-- A linear layer with all-zero weight and bias. -/
def zeroLin (a c : ℕ) : Linear a c :=
  { weight := fun _ _ => 0, bias := fun _ => 0 }

/-- A concrete positive stand-in for the exponential: the constant `1`.
(On an all-equal score row the true softmax produces exactly the same
uniform distribution as this one.) -/
def e1 : ℚ → ℚ := fun _ => 1

/-- A concrete stand-in for the group-norm reciprocal square root. -/
def rsq1 : ℚ → ℚ := fun _ => 1

/-- The all-keep drop mask, valid for every drop probability. -/
def dmF {B Q n M : ℕ} : DropMask B Q n M := fun _ _ _ _ => false

/-- A concrete two-head attention module with one-dimensional head width,
zero projection weights and unit scale factor. -/
def A2 : MHAttentionMap 1 2 1 :=
  { qLinear := zeroLin 1 2, kLinear := zeroLin 1 2,
    normalizeFact := 1, dropoutP := 0 }

/-- A concrete `(1, 1, 1)` zero query tensor. -/
def q0 : Tensor3 1 1 1 := fun _ _ _ => 0

/-- A concrete `(1, 1, 1)` zero key tensor. -/
def k0 : Tensor3 1 1 1 := fun _ _ _ => 0

/-- C1 (counterexample): with `num_heads = 2`, `M = 1` and zero projection
weights all scores are equal, so the flattened softmax puts mass `1/2` on
each of the two `(head, model)` cells; the `M`-axis slice of head `0`
therefore sums to `1/2`, not `1`.  (For an all-equal score row every
strictly positive exponential yields this same uniform distribution, so
the concrete `e1` is fully representative of the real softmax here.) -/
theorem C1_per_head_counterexample :
    ¬ (∑ m : Fin 1, A2.forward e1 false dmF q0 k0 0 0 0 m = 1) := by
  have h : ∑ m : Fin 1, A2.forward e1 false dmF q0 k0 0 0 0 m = 1 / 2 := by
    simp [MHAttentionMap.forward, MHAttentionMap.scores, softmaxVec,
      dropoutApply, e1, dmF, Fin.sum_univ_succ]
  rw [h]; norm_num

/-- C1 (amended): the flatten-then-softmax-then-reshape computation of
`MHAttentionMap.forward` normalizes jointly across the flattened
`(heads, M)` axes: in eval mode, for every `(batch, query)` and every
strictly positive exponential, the `num_heads * M` attention values sum to
`1`; the per-`(batch, query, head)` slices over `M` alone are not
individually normalized when `num_heads > 1`. -/
theorem C1_joint_softmax_normalization {qd n hd B Q M : ℕ}
    (A : MHAttentionMap qd n hd) (e : ℚ → ℚ) (he : ∀ z, 0 < e z)
    (hnm : 0 < n * M) (dmask : DropMask B Q n M)
    (q : Tensor3 B Q qd) (k : Tensor3 B M qd) (b : Fin B) (i : Fin Q) :
    ∑ h : Fin n, ∑ m : Fin M, A.forward e false dmask q k b i h m = 1 := by
  have hflat :
      ∑ h : Fin n, ∑ m : Fin M,
          softmaxVec e
            (fun j => A.scores q k b i (finProdFinEquiv.symm j).1
              (finProdFinEquiv.symm j).2)
            (finProdFinEquiv (h, m)) = 1 := by
    rw [← sum_flat
      (softmaxVec e
        (fun j => A.scores q k b i (finProdFinEquiv.symm j).1
          (finProdFinEquiv.symm j).2))]
    exact softmaxVec_sum e he hnm _
  simpa [MHAttentionMap.forward_eval] using hflat

/-- Witness for `C1_joint_softmax_normalization` at the concrete two-head
module: the positivity and nonemptiness hypotheses hold and the joint sum
is `1`. -/
theorem C1_joint_softmax_normalization_witness :
    (∀ z, 0 < e1 z) ∧ 0 < 2 * 1 ∧
      ∑ h : Fin 2, ∑ m : Fin 1, A2.forward e1 false dmF q0 k0 0 0 h m = 1 :=
  ⟨fun _ => one_pos, Nat.succ_pos 1,
    C1_joint_softmax_normalization A2 e1 (fun _ => one_pos) (Nat.succ_pos 1)
      dmF q0 k0 0 0⟩

/-- `nn.GroupNorm(G, C)` on one sample of shape `(C, L)` (channels,
spatial).  Channels are split into `G` contiguous groups of `C / G`; each
group is normalized by its own mean and biased variance over all its
`C/G * L` entries, then the per-channel affine parameters are applied.
`rsq` abstracts the reciprocal square root `v ↦ (v + eps)⁻¹ᐟ²`
(`eps = 1e-5` in PyTorch), which leaves `ℚ`. -/
def groupNorm {C L : ℕ} (G : ℕ) (rsq : ℚ → ℚ) (gw gb : Fin C → ℚ)
    (x : Fin C → Fin L → ℚ) : Fin C → Fin L → ℚ :=
  let cpg := C / G
  let grp : Fin C → ℕ := fun c => (c : ℕ) / cpg
  let cnt : ℚ := ((cpg * L : ℕ) : ℚ)
  let mean : ℕ → ℚ :=
    fun g => (∑ c, ∑ l, if grp c = g then x c l else 0) / cnt
  let varb : ℕ → ℚ :=
    fun g => (∑ c, ∑ l, if grp c = g then (x c l - mean g) ^ 2 else 0) / cnt
  fun c l => gw c * ((x c l - mean (grp c)) * rsq (varb (grp c))) + gb c

/-- `PoseHeadSmallLinear(num_dims, num_heads)`.  With
`num_feat = num_dims + num_heads`, the classification stack `l2` is the
four linear layers `num_feat//2^i → num_feat//2^(i+1)` (each followed by
ReLU in the forward pass), `l3` projects to a scalar, the pose stack `l4`
has the same widths with independent weights and `l5` projects to 6
values.  `g1w`/`g1b` are the `nn.GroupNorm(8, num_dims)` affine
parameters. -/
structure PoseHeadSmallLinear (nd H : ℕ) where
  l1 : Linear nd nd
  g1w : Fin nd → ℚ
  g1b : Fin nd → ℚ
  l2a : Linear (nd + H) ((nd + H) / 2)
  l2b : Linear ((nd + H) / 2) ((nd + H) / 4)
  l2c : Linear ((nd + H) / 4) ((nd + H) / 8)
  l2d : Linear ((nd + H) / 8) ((nd + H) / 16)
  l3 : Linear ((nd + H) / 16) 1
  l4a : Linear (nd + H) ((nd + H) / 2)
  l4b : Linear ((nd + H) / 2) ((nd + H) / 4)
  l4c : Linear ((nd + H) / 4) ((nd + H) / 8)
  l4d : Linear ((nd + H) / 8) ((nd + H) / 16)
  l5 : Linear ((nd + H) / 16) 6

/-- One `nn.Linear` stage followed by `nn.ReLU`, as appended pairwise in
the source's `l2`/`l4` `nn.Sequential` stacks. -/
def reluStage {a c : ℕ} (l : Linear a c) (v : Fin a → ℚ) : Fin c → ℚ :=
  fun j => relu (l.apply v j)

/-- The fused per-`(batch, query, model)` feature vector of
`PoseHeadSmallLinear.forward` lines 93–96: `l1`, group norm over the
permuted channel axis, ReLU, then concatenation of the refined model
features (first `nd` slots) with the head-reordered attention weights
(last `H` slots). -/
def PoseHeadSmallLinear.fused {nd H B Q M : ℕ} (P : PoseHeadSmallLinear nd H)
    (rsq : ℚ → ℚ) (x : Tensor3 B M nd) (attn : Tensor4 B Q H M) :
    Fin B → Fin Q → Fin M → Fin (nd + H) → ℚ :=
  let x1 : Tensor3 B M nd := fun b m => P.l1.apply (x b m)
  let xg : Tensor3 B M nd :=
    fun b m c => groupNorm 8 rsq P.g1w P.g1b (fun c2 l2 => x1 b l2 c2) c m
  let xr : Tensor3 B M nd := fun b m c => relu (xg b m c)
  fun b q m j =>
    if hj : (j : ℕ) < nd then xr b m ⟨j, hj⟩
    else attn b q ⟨(j : ℕ) - nd, by have := j.isLt; omega⟩ m

/-- The classification stack `l2` (four linear+ReLU stages). -/
def PoseHeadSmallLinear.classStack {nd H : ℕ} (P : PoseHeadSmallLinear nd H)
    (v : Fin (nd + H) → ℚ) : Fin ((nd + H) / 16) → ℚ :=
  reluStage P.l2d (reluStage P.l2c (reluStage P.l2b (reluStage P.l2a v)))

/-- The pose stack `l4` (four linear+ReLU stages). -/
def PoseHeadSmallLinear.poseStack {nd H : ℕ} (P : PoseHeadSmallLinear nd H)
    (v : Fin (nd + H) → ℚ) : Fin ((nd + H) / 16) → ℚ :=
  reluStage P.l4d (reluStage P.l4c (reluStage P.l4b (reluStage P.l4a v)))

/-- `PoseHeadSmallLinear.forward`: the fused tensor feeds
* the classification branch `x_c = softmax(relu(l3(l2(x))).squeeze(-1))`
  over the model axis `M`, and
* the pose branch `x_p = l5(l4(x))` with no activation after `l5`,
returning `(x_c, x_p)` of shapes `(B, Q, M)` and `(B, Q, M, 6)`. -/
def PoseHeadSmallLinear.forward {nd H B Q M : ℕ}
    (P : PoseHeadSmallLinear nd H) (e rsq : ℚ → ℚ) (x : Tensor3 B M nd)
    (attn : Tensor4 B Q H M) :
    Tensor3 B Q M × (Fin B → Fin Q → Fin M → Fin 6 → ℚ) :=
  let f := P.fused rsq x attn
  (fun b q => softmaxVec e
      (fun m => relu (P.l3.apply (P.classStack (f b q m)) (0 : Fin 1))),
    fun b q m => P.l5.apply (P.poseStack (f b q m)))

/-- C2: the classification output of the Prediction Head sums to `1` over
the model axis `M` for every `(batch, query)` pair (its shape `(B, Q, M)`
is enforced by the `Tensor3 B Q M` component type), for every strictly
positive exponential and any group-norm reciprocal square root. -/
theorem C2_class_distribution {nd H B Q M : ℕ}
    (P : PoseHeadSmallLinear nd H) (e rsq : ℚ → ℚ) (he : ∀ z, 0 < e z)
    (hM : 0 < M) (x : Tensor3 B M nd) (attn : Tensor4 B Q H M)
    (b : Fin B) (q : Fin Q) :
    ∑ m, (P.forward e rsq x attn).1 b q m = 1 := by
  have hfix : (P.forward e rsq x attn).1 b q =
      softmaxVec e (fun m =>
        relu (P.l3.apply (P.classStack (P.fused rsq x attn b q m))
          (0 : Fin 1))) := rfl
  rw [hfix]
  exact softmaxVec_sum e he hM _

/-- A zero-initialized prediction head (arbitrary widths). -/
def zeroHead (nd H : ℕ) : PoseHeadSmallLinear nd H :=
  { l1 := zeroLin _ _, g1w := fun _ => 1, g1b := fun _ => 0,
    l2a := zeroLin _ _, l2b := zeroLin _ _, l2c := zeroLin _ _,
    l2d := zeroLin _ _, l3 := zeroLin _ _,
    l4a := zeroLin _ _, l4b := zeroLin _ _, l4c := zeroLin _ _,
    l4d := zeroLin _ _, l5 := zeroLin _ _ }

/-- A concrete `(1, 1, 1, 1)` zero attention tensor. -/
def at0 : Tensor4 1 1 1 1 := fun _ _ _ _ => 0

/-- Witness for `C2_class_distribution` at a concrete zero head with
`nd = 1`, `H = 1`, `B = Q = M = 1`. -/
theorem C2_class_distribution_witness :
    (∀ z, 0 < e1 z) ∧ 0 < 1 ∧
      ∑ m, ((zeroHead 1 1).forward e1 rsq1 q0 at0).1 0 0 m = 1 :=
  ⟨fun _ => one_pos, Nat.one_pos,
    C2_class_distribution (zeroHead 1 1) e1 rsq1 (fun _ => one_pos)
      Nat.one_pos q0 at0 0 0⟩

/-- `relu` on a nonnegative is the identity. -/
theorem relu_of_nonneg {x : ℚ} (h : 0 ≤ x) : relu x = x := max_eq_left h

/-- `relu` on a nonpositive is zero. -/
theorem relu_of_nonpos {x : ℚ} (h : x ≤ 0) : relu x = 0 := max_eq_right h

/-- The classification branch as the spec's words describe it (used to
settle C3): the fused tensor through the 4-stage stack, a final linear
projection to a scalar, then directly softmax over the model axis `M`,
with no activation between projection and softmax. -/
def PoseHeadSmallLinear.classNoRelu {nd H B Q M : ℕ}
    (P : PoseHeadSmallLinear nd H) (e rsq : ℚ → ℚ) (x : Tensor3 B M nd)
    (attn : Tensor4 B Q H M) : Tensor3 B Q M :=
  fun b q => softmaxVec e
    (fun m => P.l3.apply (P.classStack (P.fused rsq x attn b q m))
      (0 : Fin 1))

/-- A linear layer that selects the first input component (weight row
`(1, 0, …, 0)`, zero bias). -/
def selLin (a c : ℕ) : Linear a c :=
  { weight := fun _ i => if (i : ℕ) = 0 then 1 else 0, bias := fun _ => 0 }

/-- `selLin` applied to a vector returns its first component. -/
theorem selLin_apply {a c : ℕ} (ha : 0 < a) (v : Fin a → ℚ) (j : Fin c) :
    (selLin a c).apply v j = v ⟨0, ha⟩ := by
  have hterm : ∀ i : Fin a,
      (if (i : ℕ) = 0 then (1 : ℚ) else 0) * v i =
        if i = ⟨0, ha⟩ then v i else 0 := by
    intro i
    by_cases h : (i : ℕ) = 0
    · have hi : i = ⟨0, ha⟩ := Fin.ext h
      simp [h, hi]
    · have hi : i ≠ ⟨0, ha⟩ := fun e => h (congrArg Fin.val e)
      simp [h, hi]
  simp [Linear.apply, selLin, hterm, Finset.sum_ite_eq']

/-- A fixed positive stand-in for the exponential that distinguishes
negative from nonnegative scores: `1` on negatives, `2` otherwise. -/
def e3 : ℚ → ℚ := fun x => if x < 0 then 1 else 2

/-- A concrete prediction head with `nd = 0`, `H = 16`
(`num_feat = 16`): the classification stack forwards the first fused
component unchanged, `l3` subtracts one, the pose side is zero. -/
def PcC3 : PoseHeadSmallLinear 0 16 :=
  { l1 := zeroLin 0 0, g1w := fun _ => 1, g1b := fun _ => 0,
    l2a := selLin 16 8, l2b := selLin 8 4, l2c := selLin 4 2,
    l2d := selLin 2 1,
    l3 := { weight := fun _ _ => 1, bias := fun _ => -1 },
    l4a := zeroLin 16 8, l4b := zeroLin 8 4, l4c := zeroLin 4 2,
    l4d := zeroLin 2 1, l5 := zeroLin 1 6 }

/-- Concrete model features for the `nd = 0` head (empty channel axis). -/
def xC3 : Tensor3 1 2 0 := fun _ _ c => c.elim0

/-- Concrete attention weights: head `0` carries the model index as its
value, all other heads are zero. -/
def attnC3 : Tensor4 1 1 16 2 :=
  fun _ _ h m => if (h : ℕ) = 0 then ((m : ℕ) : ℚ) else 0

/-- The scalar reaching the classification softmax of `PcC3` (before the
source's ReLU) is `m - 1` at model index `m`. -/
theorem PcC3_pre_softmax (m : Fin 2) :
    PcC3.l3.apply (PcC3.classStack (PcC3.fused rsq1 xC3 attnC3 0 0 m))
      (0 : Fin 1) = ((m : ℕ) : ℚ) - 1 := by
  have hf : PcC3.fused rsq1 xC3 attnC3 0 0 m =
      fun j : Fin (0 + 16) => if (j : ℕ) = 0 then ((m : ℕ) : ℚ) else 0 := by
    funext j
    simp [PoseHeadSmallLinear.fused, attnC3]
  have hm0 : (0 : ℚ) ≤ ((m : ℕ) : ℚ) := by positivity
  have hL3 : ∀ v : Fin 1 → ℚ, PcC3.l3.apply v (0 : Fin 1) = v 0 - 1 := by
    intro v
    show (∑ i : Fin 1, PcC3.l3.weight 0 i * v i) + PcC3.l3.bias 0 = v 0 - 1
    simp only [PcC3, Fin.sum_univ_one]
    ring
  rw [PoseHeadSmallLinear.classStack, hf, hL3]
  simp only [PcC3, reluStage, selLin_apply (by norm_num : 0 < 16),
    selLin_apply (by norm_num : 0 < 8), selLin_apply (by norm_num : 0 < 4),
    selLin_apply (by norm_num : 0 < 2)]
  norm_num [relu_of_nonneg hm0]

/-- C3 (counterexample): at the concrete head `PcC3`, the source's
classification branch (which applies `F.relu` to `l3`'s output *before*
the softmax, line 100 of `pose.py`) differs from the spec's
"projection then directly softmax" branch: the former yields `1/2` at
`(b, q, m) = (0, 0, 0)`, the latter `1/3`. -/
theorem C3_relu_before_softmax_counterexample :
    (PcC3.forward e3 rsq1 xC3 attnC3).1 0 0 0 ≠
      PcC3.classNoRelu e3 rsq1 xC3 attnC3 0 0 0 := by
  have h0 := PcC3_pre_softmax 0
  have h1 := PcC3_pre_softmax 1
  have hL : (PcC3.forward e3 rsq1 xC3 attnC3).1 0 0 0 = 1 / 2 := by
    show softmaxVec e3 (fun m =>
      relu (PcC3.l3.apply (PcC3.classStack (PcC3.fused rsq1 xC3 attnC3 0 0 m))
        (0 : Fin 1))) 0 = 1 / 2
    rw [softmaxVec, Fin.sum_univ_two, h0, h1]
    norm_num [e3, relu_of_nonpos, relu_of_nonneg]
  have hR : PcC3.classNoRelu e3 rsq1 xC3 attnC3 0 0 0 = 1 / 3 := by
    show softmaxVec e3 (fun m =>
      PcC3.l3.apply (PcC3.classStack (PcC3.fused rsq1 xC3 attnC3 0 0 m))
        (0 : Fin 1)) 0 = 1 / 3
    rw [softmaxVec, Fin.sum_univ_two, h0, h1]
    norm_num [e3]
  rw [hL, hR]
  norm_num

/-- C3 (amended): in the classification branch a ReLU *is* applied
between the final linear projection `l3` and the softmax: the class
output equals softmax over `M` of `relu (l3 (l2-stack (fused)))`. -/
theorem C3_class_branch_relu_then_softmax {nd H B Q M : ℕ}
    (P : PoseHeadSmallLinear nd H) (e rsq : ℚ → ℚ) (x : Tensor3 B M nd)
    (attn : Tensor4 B Q H M) (b : Fin B) (q : Fin Q) :
    (P.forward e rsq x attn).1 b q =
      softmaxVec e (fun m =>
        relu (P.l3.apply (P.classStack (P.fused rsq x attn b q m))
          (0 : Fin 1))) := rfl

/-- A head whose `l5` bias is the target vector `y` and whose every other
weight is zero: with it the pose output is constantly `y`. -/
def yHead (y : Fin 6 → ℚ) : PoseHeadSmallLinear 0 16 :=
  { l1 := zeroLin 0 0, g1w := fun _ => 1, g1b := fun _ => 0,
    l2a := zeroLin 16 8, l2b := zeroLin 8 4, l2c := zeroLin 4 2,
    l2d := zeroLin 2 1, l3 := zeroLin 1 1,
    l4a := zeroLin 16 8, l4b := zeroLin 8 4, l4c := zeroLin 4 2,
    l4d := zeroLin 2 1,
    l5 := { weight := fun _ _ => 0, bias := y } }

/-- C4: the pose output of the Prediction Head (its `(B, Q, M, 6)` shape
is enforced by the `Fin B → Fin Q → Fin M → Fin 6 → ℚ` component type)
(1) ends with the bare linear projection `l5` applied to the `l4`-stack
features, with no further activation; (2) that final map is affine in the
pre-projection features (it preserves affine combinations); and (3) it is
unclipped: every target 6-vector is attained exactly by a suitable
parameterization, for any exponential and reciprocal square root. -/
theorem C4_pose_branch_affine_unbounded :
    (∀ (nd H B Q M : ℕ) (P : PoseHeadSmallLinear nd H) (e rsq : ℚ → ℚ)
      (x : Tensor3 B M nd) (attn : Tensor4 B Q H M),
      (P.forward e rsq x attn).2 =
        fun b q m => P.l5.apply (P.poseStack (P.fused rsq x attn b q m))) ∧
    (∀ (a c : ℕ) (L : Linear a c) (u v : Fin a → ℚ) (t : ℚ) (j : Fin c),
      L.apply (fun i => t * u i + (1 - t) * v i) j =
        t * L.apply u j + (1 - t) * L.apply v j) ∧
    (∀ (e rsq : ℚ → ℚ) (y : Fin 6 → ℚ),
      ∃ (P : PoseHeadSmallLinear 0 16) (x : Tensor3 1 1 0)
        (attn : Tensor4 1 1 16 1),
        (P.forward e rsq x attn).2 0 0 0 = y) := by
  refine ⟨fun nd H B Q M P e rsq x attn => rfl, ?_, ?_⟩
  · intro a c L u v t j
    have hterm :
        ∑ i, L.weight j i * (t * u i + (1 - t) * v i) =
          t * ∑ i, L.weight j i * u i + (1 - t) * ∑ i, L.weight j i * v i := by
      rw [Finset.mul_sum, Finset.mul_sum, ← Finset.sum_add_distrib]
      exact Finset.sum_congr rfl fun i _ => by ring
    simp only [Linear.apply, hterm]
    ring
  · intro e rsq y
    refine ⟨yHead y, fun _ _ c => c.elim0, fun _ _ _ _ => 0, ?_⟩
    funext j
    show (yHead y).l5.apply
      ((yHead y).poseStack
        ((yHead y).fused rsq (fun _ _ c => c.elim0) (fun _ _ _ _ => 0) 0 0 0))
      j = y j
    show (∑ i, (yHead y).l5.weight j i *
        (yHead y).poseStack
          ((yHead y).fused rsq (fun _ _ c => c.elim0) (fun _ _ _ _ => 0)
            0 0 0) i) + (yHead y).l5.bias j = y j
    simp [yHead]

/-- C8: both stages downstream of the model-feature broadcast are
batch-pointwise: the batch-`b` slice of the Cross-Attention Map (eval
mode) and of both Prediction Head outputs depends only on the batch-`b`
slices of their inputs.  Consequently computing the shared `(M, num_dims)`
feature set once and tiling it to batch size `B` (`fun _ => feat`, the
embedding of `model_3d_feat[None].repeat(bs, 1, 1)`) is numerically
identical to running the stages on any batch-size-`B` tensor with the
same per-row values. -/
theorem C8_batch_slice_locality {qd n hd nd H B Q M : ℕ} (e rsq : ℚ → ℚ) :
    (∀ (A : MHAttentionMap qd n hd) (dm1 dm2 : DropMask B Q n M)
      (q1 q2 : Tensor3 B Q qd) (k1 k2 : Tensor3 B M qd) (b : Fin B),
      q1 b = q2 b → k1 b = k2 b →
      A.forward e false dm1 q1 k1 b = A.forward e false dm2 q2 k2 b) ∧
    (∀ (P : PoseHeadSmallLinear nd H) (x1 x2 : Tensor3 B M nd)
      (a1 a2 : Tensor4 B Q H M) (b : Fin B),
      x1 b = x2 b → a1 b = a2 b →
      (P.forward e rsq x1 a1).1 b = (P.forward e rsq x2 a2).1 b ∧
      (P.forward e rsq x1 a1).2 b = (P.forward e rsq x2 a2).2 b) := by
  constructor
  · intro A dm1 dm2 q1 q2 k1 k2 b hq hk
    funext i h m
    rw [MHAttentionMap.forward_eval, MHAttentionMap.forward_eval]
    simp only [softmaxVec, MHAttentionMap.scores]
    simp only [hq, hk]
  · intro P x1 x2 a1 a2 b hx ha
    have hfb : P.fused rsq x1 a1 b = P.fused rsq x2 a2 b := by
      funext qq mm j
      simp only [PoseHeadSmallLinear.fused]
      simp only [hx, ha]
    constructor
    · show (fun qq => softmaxVec e (fun mm =>
          relu (P.l3.apply (P.classStack (P.fused rsq x1 a1 b qq mm))
            (0 : Fin 1)))) =
        fun qq => softmaxVec e (fun mm =>
          relu (P.l3.apply (P.classStack (P.fused rsq x2 a2 b qq mm))
            (0 : Fin 1)))
      rw [hfb]
    · show (fun qq mm => P.l5.apply (P.poseStack (P.fused rsq x1 a1 b qq mm)))
        = fun qq mm => P.l5.apply (P.poseStack (P.fused rsq x2 a2 b qq mm))
      rw [hfb]

/-- Witness for `C8_batch_slice_locality` at concrete inputs whose
batch-`0` slices agree (the tiled broadcast of a shared key row versus
itself). -/
theorem C8_batch_slice_locality_witness :
    (A2.forward e1 false dmF q0 k0 0 = A2.forward e1 false dmF q0 k0 0) ∧
      ((zeroHead 1 1).forward e1 rsq1 q0 at0).1 0 =
        ((zeroHead 1 1).forward e1 rsq1 q0 at0).1 0 :=
  ⟨(@C8_batch_slice_locality 1 2 1 1 1 1 1 1 e1 rsq1).1 A2 dmF dmF
      q0 q0 k0 k0 0 rfl rfl,
    ((@C8_batch_slice_locality 1 2 1 1 1 1 1 1 e1 rsq1).2 (zeroHead 1 1)
      q0 q0 at0 at0 0 rfl rfl).1⟩

/-- Which sub-module of `DETRpose` owns a parameter. -/
inductive Owner where
  | detr
  | model3d
  | attn
  | head
deriving DecidableEq

/-- One registered parameter: its owning sub-module and its
`requires_grad` flag. -/
structure ParamFlag where
  owner : Owner
  grad : Bool
deriving DecidableEq

/-- The `requires_grad` bookkeeping of `DETRpose.__init__` in source
order: first `self.detr = detr` registers the detector's parameters (with
whatever flags they arrive with); then, if `freeze_detr`, the loop
`for p in self.parameters(): p.requires_grad_(False)` clears the flags of
everything registered *so far* (only the detector); only afterwards are
`model_3d_net`, `bbox_attention` and `pose_head` constructed, each fresh
with `requires_grad=True`. -/
def initParamFlags (detrFlags : List Bool) (n3 na nh : ℕ)
    (freeze : Bool) : List ParamFlag :=
  let s0 := detrFlags.map fun g => ParamFlag.mk Owner.detr g
  let s1 := if freeze then s0.map (fun p => ParamFlag.mk p.owner false)
    else s0
  s1 ++ List.replicate n3 (ParamFlag.mk Owner.model3d true)
    ++ List.replicate na (ParamFlag.mk Owner.attn true)
    ++ List.replicate nh (ParamFlag.mk Owner.head true)

/-- The external detector interface consumed by `DETRpose.forward`
(`models/detr.py` is outside this core): abstract input/feature/mask/
positional-encoding/projection/query-embedding/memory types, the last
backbone scale (`features[-1].decompose()` and `pos[-1]` are the only
parts the source reads), the transformer returning `Lp + 1` decoder
layers of hidden states, per-vector classification and box heads, and the
`aux_loss` flag. -/
structure DETRdetector (S Ft Msk Ps Pr Qe Mem : Type)
    (B Q dm K Lp : ℕ) where
  backbone : S → (Ft × Option Msk) × Ps
  inputProj : Ft → Pr
  queryEmbed : Qe
  transformer : Pr → Msk → Qe → Ps → (Fin (Lp + 1) → Tensor3 B Q dm) × Mem
  classEmbed : (Fin dm → ℚ) → Fin K → ℚ
  bboxEmbed : (Fin dm → ℚ) → Fin 4 → ℚ
  auxLoss : Bool

/-- The external 3D-model network (`Model3DNet`, outside this core):
`forward_encoder()` yields the batch-independent `(M, num_dims)` feature
set and `forward_decoder` reconstructs the point cloud with its scale and
center (abstract types). -/
structure Model3DNet (PT SC CT : Type) (M dm : ℕ) where
  encFeat : Fin M → Fin dm → ℚ
  decode : (Fin M → Fin dm → ℚ) → PT × SC × CT

/-- `torch.sigmoid` with the exponential abstracted:
`1 / (1 + e (-x))`. -/
def sigmoid (e : ℚ → ℚ) (x : ℚ) : ℚ := 1 / (1 + e (-x))

/-- The output record of `DETRpose.forward`; field names follow the
`out` dictionary keys of the source. -/
structure PoseOut (PT SC CT : Type) (B Q K M : ℕ) where
  pred_logits : Tensor3 B Q K
  pred_boxes : Tensor3 B Q 4
  aux_outputs : Option (List (Tensor3 B Q K × Tensor3 B Q 4))
  pose_class : Tensor3 B Q M
  pose_6dof : Fin B → Fin Q → Fin M → Fin 6 → ℚ
  pred_model_points : PT
  pred_model_scales : SC
  pred_model_centers : CT

/-- Modelled from the spec: the detector's `_set_aux_loss` helper is not
part of this core's source; per the spec it packages, for every decoder
layer except the last, that layer's class logits and box coordinates into
one auxiliary entry (so the entries have exactly the types of the
final-layer `pred_logits`/`pred_boxes`). -/
def setAuxLoss {B Q K Lp : ℕ} (oc : Fin (Lp + 1) → Tensor3 B Q K)
    (obx : Fin (Lp + 1) → Tensor3 B Q 4) :
    List (Tensor3 B Q K × Tensor3 B Q 4) :=
  (List.finRange Lp).map fun l => (oc l.castSucc, obx l.castSucc)

/-- The Joint Pose Network.  Its hidden width is `nH * hd`
(`detr.transformer.d_model`, with `nH = detr.transformer.nhead`).
`paramFlags` records the `requires_grad` state produced by
`__init__`. -/
structure DETRpose (S Ft Msk Ps Pr Qe Mem PT SC CT : Type)
    (B Q K Lp nH hd M : ℕ) where
  detr : DETRdetector S Ft Msk Ps Pr Qe Mem B Q (nH * hd) K Lp
  paramFlags : List ParamFlag
  model3dNet : Model3DNet PT SC CT M (nH * hd)
  bboxAttention : MHAttentionMap (nH * hd) nH hd
  poseHead : PoseHeadSmallLinear (nH * hd) nH

/-- `DETRpose.__init__`: wrap the detector, apply the freezing loop to
the parameters registered so far, then construct the 3D-model network,
the Cross-Attention Map (with `dropout=0.0`, line 123) and the prediction
head, all with fresh trainable parameters. -/
def DETRpose.build {S Ft Msk Ps Pr Qe Mem PT SC CT : Type}
    {B Q K Lp nH hd M : ℕ}
    (detr : DETRdetector S Ft Msk Ps Pr Qe Mem B Q (nH * hd) K Lp)
    (detrFlags : List Bool) (n3 na nh : ℕ)
    (m3d : Model3DNet PT SC CT M (nH * hd))
    (qLin kLin : Linear (nH * hd) (nH * hd)) (nfac : ℚ)
    (head : PoseHeadSmallLinear (nH * hd) nH) (freeze : Bool) :
    DETRpose S Ft Msk Ps Pr Qe Mem PT SC CT B Q K Lp nH hd M :=
  { detr := detr
    paramFlags := initParamFlags detrFlags n3 na nh freeze
    model3dNet := m3d
    bboxAttention :=
      { qLinear := qLin, kLinear := kLin, normalizeFact := nfac,
        dropoutP := 0 }
    poseHead := head }

/-- `DETRpose.forward`: backbone (last scale), the
`assert mask is not None` check, input projection, transformer, detection
heads with sigmoid boxes, optional auxiliary outputs, the
batch-independent 3D-model features (encoded once, decoded, then
broadcast over the batch), cross attention between the last decoder
layer's hidden states and the broadcast features, the prediction head,
and the assembled record. -/
def DETRpose.forward {S Ft Msk Ps Pr Qe Mem PT SC CT : Type}
    {B Q K Lp nH hd M : ℕ}
    (P : DETRpose S Ft Msk Ps Pr Qe Mem PT SC CT B Q K Lp nH hd M)
    (e rsq : ℚ → ℚ) (training : Bool) (dmask : DropMask B Q nH M)
    (samples : S) : Except String (PoseOut PT SC CT B Q K M) :=
  match P.detr.backbone samples with
  | ((_, none), _) => .error "mask is None after decompose"
  | ((feat, some mask), pos) =>
    let srcProj := P.detr.inputProj feat
    let hsMem := P.detr.transformer srcProj mask P.detr.queryEmbed pos
    let hs := hsMem.1
    let outputsClass : Fin (Lp + 1) → Tensor3 B Q K :=
      fun l b q => P.detr.classEmbed (hs l b q)
    let outputsCoord : Fin (Lp + 1) → Tensor3 B Q 4 :=
      fun l b q j => sigmoid e (P.detr.bboxEmbed (hs l b q) j)
    let modelFeat := P.model3dNet.encFeat
    let predModelPoint := P.model3dNet.decode modelFeat
    let modelFeatB : Tensor3 B M (nH * hd) := fun _ => modelFeat
    let attnW := P.bboxAttention.forward e training dmask
      (hs (Fin.last Lp)) modelFeatB
    let pc := P.poseHead.forward e rsq modelFeatB attnW
    .ok
      { pred_logits := outputsClass (Fin.last Lp)
        pred_boxes := outputsCoord (Fin.last Lp)
        aux_outputs :=
          if P.detr.auxLoss then some (setAuxLoss outputsClass outputsCoord)
          else none
        pose_class := pc.1
        pose_6dof := pc.2
        pred_model_points := predModelPoint.1
        pred_model_scales := predModelPoint.2.1
        pred_model_centers := predModelPoint.2.2 }

/-- The auxiliary-outputs field of a forward result (`none` on error). -/
def auxOf {PT SC CT : Type} {B Q K M : ℕ}
    (r : Except String (PoseOut PT SC CT B Q K M)) :
    Option (List (Tensor3 B Q K × Tensor3 B Q 4)) :=
  match r with
  | .ok o => o.aux_outputs
  | .error _ => none

/-- Whether a forward result is the failure branch. -/
def isError {PT SC CT : Type} {B Q K M : ℕ}
    (r : Except String (PoseOut PT SC CT B Q K M)) : Bool :=
  match r with
  | .ok _ => false
  | .error _ => true

/-- C5: with identical weights and identical input, the forward pass of
the Joint Pose Network built with `freeze_detr=True` produces exactly the
same output record as the one built with `freeze_detr=False`: the
freezing loop only changes `requires_grad` bookkeeping
(`paramFlags`), which the forward computation never reads. -/
theorem C5_freeze_forward_invariance {S Ft Msk Ps Pr Qe Mem PT SC CT : Type}
    {B Q K Lp nH hd M : ℕ}
    (detr : DETRdetector S Ft Msk Ps Pr Qe Mem B Q (nH * hd) K Lp)
    (detrFlags : List Bool) (n3 na nh : ℕ)
    (m3d : Model3DNet PT SC CT M (nH * hd))
    (qLin kLin : Linear (nH * hd) (nH * hd)) (nfac : ℚ)
    (head : PoseHeadSmallLinear (nH * hd) nH) (e rsq : ℚ → ℚ)
    (training : Bool) (dmask : DropMask B Q nH M) (samples : S) :
    (DETRpose.build detr detrFlags n3 na nh m3d qLin kLin nfac head
        true).forward e rsq training dmask samples =
      (DETRpose.build detr detrFlags n3 na nh m3d qLin kLin nfac head
        false).forward e rsq training dmask samples := rfl

/-- C6: when the detector's `aux_loss` flag is set, the forward record
carries an `aux_outputs` list with exactly `Lp` entries — one per decoder
layer except the last, the layer count being `Lp + 1` — each entry typed
exactly like the final-layer `pred_logits`/`pred_boxes` pair; when the
flag is clear the field is absent (`none`).  (`_set_aux_loss` lives in
the external detector file and is modelled from the spec as
`setAuxLoss`.) -/
theorem C6_aux_outputs {S Ft Msk Ps Pr Qe Mem PT SC CT : Type}
    {B Q K Lp nH hd M : ℕ}
    (P : DETRpose S Ft Msk Ps Pr Qe Mem PT SC CT B Q K Lp nH hd M)
    (e rsq : ℚ → ℚ) (training : Bool) (dmask : DropMask B Q nH M)
    (samples : S) (f : Ft) (mk : Msk) (ps : Ps)
    (hb : P.detr.backbone samples = ((f, some mk), ps)) :
    (P.detr.auxLoss = true →
      ∃ xs, auxOf (P.forward e rsq training dmask samples) = some xs ∧
        xs.length = Lp) ∧
    (P.detr.auxLoss = false →
      auxOf (P.forward e rsq training dmask samples) = none) := by
  constructor
  · intro ha
    have hfw : auxOf (P.forward e rsq training dmask samples) =
        some (setAuxLoss
          (fun l b q => P.detr.classEmbed
            ((P.detr.transformer (P.detr.inputProj f) mk P.detr.queryEmbed
              ps).1 l b q))
          (fun l b q j => sigmoid e
            (P.detr.bboxEmbed
              ((P.detr.transformer (P.detr.inputProj f) mk P.detr.queryEmbed
                ps).1 l b q) j))) := by
      simp [DETRpose.forward, hb, auxOf, ha]
    exact ⟨_, hfw, by simp [setAuxLoss]⟩
  · intro ha
    simp [DETRpose.forward, hb, auxOf, ha]

/-- C7: the forward pass fails exactly when the mask obtained from
decomposing the last backbone feature map is absent (the
`assert mask is not None` on line 136); whenever the padded batch carries
a mask the failure branch is unreachable and the pass returns a record. -/
theorem C7_mask_assert {S Ft Msk Ps Pr Qe Mem PT SC CT : Type}
    {B Q K Lp nH hd M : ℕ}
    (P : DETRpose S Ft Msk Ps Pr Qe Mem PT SC CT B Q K Lp nH hd M)
    (e rsq : ℚ → ℚ) (training : Bool) (dmask : DropMask B Q nH M)
    (samples : S) :
    (isError (P.forward e rsq training dmask samples) = true ↔
      (P.detr.backbone samples).1.2 = none) ∧
    (∀ (f : Ft) (mk : Msk) (ps : Ps),
      P.detr.backbone samples = ((f, some mk), ps) →
      ∃ out, P.forward e rsq training dmask samples = .ok out) := by
  rcases hb : P.detr.backbone samples with ⟨⟨f, m?⟩, ps⟩
  cases m? with
  | none =>
    constructor
    · simp [DETRpose.forward, hb, isError]
    · intro f' mk' ps' h
      simp at h
  | some mk =>
    constructor
    · simp [DETRpose.forward, hb, isError]
    · intro f' mk' ps' _
      cases hfw : P.forward e rsq training dmask samples with
      | ok out => exact ⟨out, rfl⟩
      | error msg =>
        simp only [DETRpose.forward, hb] at hfw
        exact Except.noConfusion hfw

/-- With a zero dropout probability, the attention forward pass is
independent of the training flag and of any validly-sampled drop mask. -/
theorem MHAttentionMap.forward_dropoutP_zero {qd n hd B Q M : ℕ}
    (A : MHAttentionMap qd n hd) (hA0 : A.dropoutP = 0) (e : ℚ → ℚ)
    (t1 t2 : Bool) (dm1 dm2 : DropMask B Q n M)
    (hm1 : ∀ b q h mm, dm1 b q h mm = false)
    (hm2 : ∀ b q h mm, dm2 b q h mm = false)
    (q : Tensor3 B Q qd) (k : Tensor3 B M qd) :
    A.forward e t1 dm1 q k = A.forward e t2 dm2 q k := by
  simp only [MHAttentionMap.forward, hA0]
  rw [dropoutApply_zero t1 dm1 _ hm1, dropoutApply_zero t2 dm2 _ hm2]

/-- C9: `DETRpose.__init__` builds its Cross-Attention Map with
`dropout=0.0`, so the dropout layer is the identity on the attention
weights in training and eval mode alike: for fixed parameters, forward
passes with any two training-mode flags and any two validly sampled
dropout masks produce identical attention weights and an identical output
record (in particular identical `pose_class` and `pose_6dof`). -/
theorem C9_zero_dropout_determinism {S Ft Msk Ps Pr Qe Mem PT SC CT : Type}
    {B Q K Lp nH hd M : ℕ}
    (detr : DETRdetector S Ft Msk Ps Pr Qe Mem B Q (nH * hd) K Lp)
    (detrFlags : List Bool) (n3 na nh : ℕ)
    (m3d : Model3DNet PT SC CT M (nH * hd))
    (qLin kLin : Linear (nH * hd) (nH * hd)) (nfac : ℚ)
    (head : PoseHeadSmallLinear (nH * hd) nH) (freeze : Bool)
    (e rsq : ℚ → ℚ) (samples : S) (t1 t2 : Bool)
    (dm1 dm2 : DropMask B Q nH M)
    (h1 : ValidDropMask 0 dm1) (h2 : ValidDropMask 0 dm2) :
    (∀ (q : Tensor3 B Q (nH * hd)) (k : Tensor3 B M (nH * hd)),
      (DETRpose.build detr detrFlags n3 na nh m3d qLin kLin nfac head
          freeze).bboxAttention.forward e t1 dm1 q k =
        (DETRpose.build detr detrFlags n3 na nh m3d qLin kLin nfac head
          freeze).bboxAttention.forward e t2 dm2 q k) ∧
    (DETRpose.build detr detrFlags n3 na nh m3d qLin kLin nfac head
        freeze).forward e rsq t1 dm1 samples =
      (DETRpose.build detr detrFlags n3 na nh m3d qLin kLin nfac head
        freeze).forward e rsq t2 dm2 samples := by
  have hA : ∀ (q : Tensor3 B Q (nH * hd)) (k : Tensor3 B M (nH * hd)),
      (MHAttentionMap.mk qLin kLin nfac 0).forward e t1 dm1 q k =
        (MHAttentionMap.mk qLin kLin nfac 0).forward e t2 dm2 q k :=
    fun q k => MHAttentionMap.forward_dropoutP_zero _ rfl e t1 t2 dm1 dm2
      (h1 rfl) (h2 rfl) q k
  refine ⟨hA, ?_⟩
  rcases hb : detr.backbone samples with ⟨⟨f, m?⟩, ps⟩
  cases m? with
  | none => simp [DETRpose.forward, DETRpose.build, hb]
  | some mk =>
    simp only [DETRpose.forward, DETRpose.build, hb]
    rw [hA]

/-- C10: the freezing loop of `__init__` runs while only the wrapped
detector's parameters are registered, so with `freeze_detr=True` every
detector parameter ends with `requires_grad=False` while every parameter
of the later-constructed `model_3d_net`, `bbox_attention` and `pose_head`
still has `requires_grad=True`. -/
theorem C10_freeze_only_detector (detrFlags : List Bool) (n3 na nh : ℕ)
    (p : ParamFlag) (hp : p ∈ initParamFlags detrFlags n3 na nh true) :
    (p.owner = Owner.detr → p.grad = false) ∧
    (p.owner ≠ Owner.detr → p.grad = true) := by
  simp only [initParamFlags, if_true, List.map_map, List.mem_append,
    List.mem_map, List.mem_replicate, Function.comp] at hp
  rcases hp with ((⟨g, _, rfl⟩ | ⟨_, rfl⟩) | ⟨_, rfl⟩) | ⟨_, rfl⟩ <;>
    simp

/-- A concrete detector over unit collaborator types with zero hidden
states and heads. -/
def unitDETR (B Q K Lp dm : ℕ) (aux maskPresent : Bool) :
    DETRdetector Unit Unit Unit Unit Unit Unit Unit B Q dm K Lp :=
  { backbone := fun _ => (((), if maskPresent then some () else none), ())
    inputProj := fun _ => ()
    queryEmbed := ()
    transformer := fun _ _ _ _ => (fun _ _ _ _ => 0, ())
    classEmbed := fun _ _ => 0
    bboxEmbed := fun _ _ => 0
    auxLoss := aux }

/-- A concrete 3D-model network with zero features over unit types. -/
def unitM3D (M dm : ℕ) : Model3DNet Unit Unit Unit M dm :=
  { encFeat := fun _ _ => 0, decode := fun _ => ((), (), ()) }

/-- A concrete joint network with three decoder layers (`Lp = 2`),
auxiliary loss enabled and a present mask. -/
def PC6 : DETRpose Unit Unit Unit Unit Unit Unit Unit Unit Unit Unit
    1 1 1 2 1 1 1 :=
  @DETRpose.build Unit Unit Unit Unit Unit Unit Unit Unit Unit Unit
    1 1 1 2 1 1 1 (unitDETR 1 1 1 2 1 true true) [true] 1 1 1 (unitM3D 1 1)
    (zeroLin 1 1) (zeroLin 1 1) 1 (zeroHead 1 1) false

/-- Witness for `C6_aux_outputs`: at `PC6` the backbone hypothesis holds
and the enabled auxiliary list has exactly `2 = 3 - 1` entries. -/
theorem C6_aux_outputs_witness :
    PC6.detr.backbone () = (((), some ()), ()) ∧
      ((PC6.detr.auxLoss = true →
        ∃ xs, auxOf (PC6.forward e1 rsq1 false dmF ()) = some xs ∧
          xs.length = 2) ∧
      (PC6.detr.auxLoss = false →
        auxOf (PC6.forward e1 rsq1 false dmF ()) = none)) :=
  ⟨rfl, C6_aux_outputs PC6 e1 rsq1 false dmF () () () () rfl⟩

/-- A concrete joint network whose backbone loses the mask. -/
def PC7 : DETRpose Unit Unit Unit Unit Unit Unit Unit Unit Unit Unit
    1 1 1 2 1 1 1 :=
  @DETRpose.build Unit Unit Unit Unit Unit Unit Unit Unit Unit Unit
    1 1 1 2 1 1 1 (unitDETR 1 1 1 2 1 true false) [true] 1 1 1 (unitM3D 1 1)
    (zeroLin 1 1) (zeroLin 1 1) 1 (zeroHead 1 1) false

/-- Witness for `C7_mask_assert`: at `PC7` (absent mask) the failure
equivalence is realized concretely. -/
theorem C7_mask_assert_witness :
    isError (PC7.forward e1 rsq1 false dmF ()) = true ↔
      (PC7.detr.backbone ()).1.2 = none :=
  (C7_mask_assert PC7 e1 rsq1 false dmF ()).1

/-- A concrete joint network built with a frozen detector, a single
decoder layer and the construction's `dropout=0.0` attention. -/
def PC9 : DETRpose Unit Unit Unit Unit Unit Unit Unit Unit Unit Unit
    1 1 1 0 1 1 1 :=
  @DETRpose.build Unit Unit Unit Unit Unit Unit Unit Unit Unit Unit
    1 1 1 0 1 1 1 (unitDETR 1 1 1 0 1 false true) [true] 1 1 1
    (unitM3D 1 1) (zeroLin 1 1) (zeroLin 1 1) 1 (zeroHead 1 1) true

/-- Witness for `C9_zero_dropout_determinism`: at `PC9`, with training
flags `true`/`false` and all-keep masks, the validity hypotheses hold and
both conclusions follow. -/
theorem C9_zero_dropout_determinism_witness :
    (∀ (q : Tensor3 1 1 1) (k : Tensor3 1 1 1),
      PC9.bboxAttention.forward e1 true dmF q k =
        PC9.bboxAttention.forward e1 false dmF q k) ∧
    PC9.forward e1 rsq1 true dmF () = PC9.forward e1 rsq1 false dmF () :=
  @C9_zero_dropout_determinism Unit Unit Unit Unit Unit Unit Unit Unit Unit
    Unit 1 1 1 0 1 1 1 (unitDETR 1 1 1 0 1 false true) [true] 1 1 1
    (unitM3D 1 1) (zeroLin 1 1) (zeroLin 1 1) 1 (zeroHead 1 1) true
    e1 rsq1 () true false dmF dmF (fun _ _ _ _ _ => rfl)
    (fun _ _ _ _ _ => rfl)

/-- Witness for `C10_freeze_only_detector`: the frozen detector parameter
`⟨detr, false⟩` is registered by the construction with one parameter per
sub-module, and the conclusions hold for it. -/
theorem C10_freeze_only_detector_witness :
    (ParamFlag.mk Owner.detr false ∈ initParamFlags [true] 1 1 1 true) ∧
      ((ParamFlag.mk Owner.detr false).owner = Owner.detr →
        (ParamFlag.mk Owner.detr false).grad = false) ∧
      ((ParamFlag.mk Owner.detr false).owner ≠ Owner.detr →
        (ParamFlag.mk Owner.detr false).grad = true) :=
  ⟨by decide, C10_freeze_only_detector [true] 1 1 1 _ (by decide)⟩

end SMOPE
